import Mathlib

/-!
Verification development for the Feelings-World card engine (`run.py`).

The rule-evaluation core of the program is shallowly embedded here:
Python `int`/`float` arithmetic on stat values is modelled by `Rat`
(the program mixes ints with the literal `1.5`, so values are exact
halves), Python dicts by association lists with dict-style update,
Python sets of flags by lists used only through membership, and the
two sources of randomness (`random.randint` in `roll`,
`random.choices` in `pick_card`) by injected functions.  Operations
that can raise a Python exception (`KeyError` on a missing stat key,
`IndexError` on an empty choice pool) return `Except Unit`.
-/

namespace FeelingsWorld

instance {ε α : Type} [DecidableEq ε] [DecidableEq α] : DecidableEq (Except ε α) := fun a b =>
  match a, b with
  | .error e, .error f =>
      if h : e = f then isTrue (by rw [h]) else isFalse (fun hh => by cases hh; exact h rfl)
  | .error _, .ok _ => isFalse (fun hh => by cases hh)
  | .ok _, .error _ => isFalse (fun hh => by cases hh)
  | .ok x, .ok y =>
      if h : x = y then isTrue (by rw [h]) else isFalse (fun hh => by cases hh; exact h rfl)

/-- EffectValue mirrors `EffectValue = Union[int, List[int]]` from `run.py`:
a delta is either a fixed integer or a two-element `[lo, hi]` range. -/
inductive EffectValue where
  | fixed (n : Int)
  | range (lo hi : Int)
deriving DecidableEq, Repr

/-- CardDef mirrors the `CardDef` dataclass of `run.py`. -/
structure CardDef where
  id : String
  weight : Int
  require_flags : List String
  forbid_flags : List String
  effects_left : List (String × EffectValue)
  effects_right : List (String × EffectValue)
  set_flags_left : List String
  set_flags_right : List String
  clear_flags_left : List String
  clear_flags_right : List String
deriving DecidableEq, Repr

/-- GameState mirrors the `GameState` dataclass of `run.py`: the stats dict
is an association list (dict-ordered), the flag set a list used only via
membership. -/
structure GameState where
  stats : List (String × Rat)
  flags : List String
  turn : Int
  last_card_id : Option String
deriving DecidableEq, Repr

/-- Deck mirrors the deck dictionary consumed by `GameRoot.__init__`
(`deck["stats"]`, `deck["max_turns"]`, `deck["cards"]`). -/
structure Deck where
  stats : List String
  max_turns : Int
  cards : List CardDef
deriving DecidableEq, Repr

/-- GameRoot mirrors the engine-relevant fields of the `GameRoot` widget:
the declared stat list, the turn limit, the loaded cards, the mutable
`GameState`, the current card id held by the card widget
(`self.card.card_id`), and whether/with what outcome `show_end` has
replaced the stage (the pair is the untranslated ending key pair that the
code passes through `self.tr.t`). -/
structure GameRoot where
  stats_keys : List String
  max_turns : Int
  cards : List CardDef
  gs : GameState
  card_id : Option String
  ended : Bool
  ending : Option (String × String)
deriving DecidableEq, Repr

/-- clamp mirrors `clamp(x, lo=0, hi=100) = max(lo, min(hi, x))`.  The Python
function is annotated `int` but is applied to floats and performs no
conversion, so it is modelled on `Rat`. -/
def clamp (x lo hi : Rat) : Rat :=
  max lo (min hi x)

/-- roll mirrors `roll(v)`: a two-element list becomes a `random.randint`
draw, modelled by the injected sampler `rng`; anything else is the fixed
integer.  (`random.randint` raises when `lo > hi`; `rng` abstracts only the
non-raising executions.) -/
def roll (rng : Int → Int → Int) : EffectValue → Int
  | .range lo hi => rng lo hi
  | .fixed n => n

/-- dictGet models Python dict lookup `d[k]` on the association-list
encoding, returning `none` where Python would raise `KeyError`. -/
def dictGet (d : List (String × Rat)) (k : String) : Option Rat :=
  (d.find? (fun p => p.1 == k)).map (fun p => p.2)

/-- dictSet models Python dict assignment `d[k] = v`: an existing key is
updated in place, a new key is appended (insertion order). -/
def dictSet (d : List (String × Rat)) (k : String) (v : Rat) : List (String × Rat) :=
  if d.any (fun p => p.1 == k) then
    d.map (fun p => if p.1 == k then (k, v) else p)
  else
    d ++ [(k, v)]

/-- apply_effects mirrors `GameRoot.apply_effects`: for each effect whose key
is already a stat, the stat becomes `clamp(old + 1.5 * roll(v), 0, 100)`.
Note the code performs no rounding: `1.5 * roll(v)` is float arithmetic and
`clamp` returns it unchanged within bounds. -/
def apply_effects (rng : Int → Int → Int) (stats : List (String × Rat))
    (effects : List (String × EffectValue)) : List (String × Rat) :=
  effects.foldl
    (fun st p =>
      match dictGet st p.1 with
      | none => st
      | some x => dictSet st p.1 (clamp (x + 3 / 2 * (roll rng p.2 : Rat)) 0 100))
    stats

/-- apply_flags mirrors `GameRoot.apply_flags`: add every `set` flag to the
set, then discard every `clear` flag. -/
def apply_flags (flags : List String) (set_flags clear_flags : List String) : List String :=
  let withSet := set_flags.foldl (fun fs f => if fs.contains f then fs else fs ++ [f]) flags
  clear_flags.foldl (fun fs f => fs.filter (fun x => x ≠ f)) withSet

/-- eligible_cards mirrors `GameRoot.eligible_cards`: keep a card unless it
is the last shown card, some required flag is absent, or some forbidden flag
is present; fall back to the full card list when the filter is empty. -/
def eligible_cards (gs : GameState) (cards : List CardDef) : List CardDef :=
  let out := cards.filter (fun c =>
    !(some c.id == gs.last_card_id) &&
    !(c.require_flags.any (fun f => !(gs.flags.contains f))) &&
    !(c.forbid_flags.any (fun f => gs.flags.contains f)))
  if out.isEmpty then cards else out

/-- pick_card mirrors `GameRoot.pick_card`: a weighted `random.choices` draw
from the eligible pool with weights `max(1, weight)`.  The draw is modelled
by the injected index chooser `choose`; an out-of-pool index (in particular
an empty pool, where `random.choices` raises `IndexError`) yields `none`. -/
def pick_card (choose : List CardDef → List Int → Nat) (gs : GameState)
    (cards : List CardDef) : Option CardDef :=
  let pool := eligible_cards gs cards
  let weights := pool.map (fun c => max 1 c.weight)
  pool[choose pool weights]?

/-- next_card mirrors `GameRoot.next_card`: pick a card, record it as
`last_card_id`, and load it into the card widget (`card.set_card`). -/
def next_card (choose : List CardDef → List Int → Nat) (g : GameRoot) :
    Except Unit GameRoot :=
  match pick_card choose g.gs g.cards with
  | none => .error ()
  | some c =>
      .ok { g with gs := { g.gs with last_card_id := some c.id }, card_id := some c.id }

/-- stat_boundary_check models one `if s[k] <= 0 ... if s[k] >= 100 ...`
block of `GameRoot.check_ending`; a missing key is Python's `KeyError`. -/
def stat_boundary_check (gs : GameState) (k low high : String) :
    Except Unit (Option (String × String)) :=
  match dictGet gs.stats k with
  | none => .error ()
  | some v =>
      if v ≤ 0 then
        .ok (some ("ending." ++ low ++ ".title", "ending." ++ low ++ ".body"))
      else if 100 ≤ v then
        .ok (some ("ending." ++ high ++ ".title", "ending." ++ high ++ ".body"))
      else
        .ok none

/-- andThenCheck chains the sequential early-return structure of
`check_ending`: the first raised error or returned outcome wins. -/
def andThenCheck (a : Except Unit (Option (String × String)))
    (b : Unit → Except Unit (Option (String × String))) :
    Except Unit (Option (String × String)) :=
  match a with
  | .error e => .error e
  | .ok (some r) => .ok (some r)
  | .ok none => b ()

/-- check_ending mirrors `GameRoot.check_ending`: the five hardcoded stats
`joy, sadness, anger, fear, calm` are checked for boundaries in that fixed
order, then the turn limit; the returned pair is the untranslated
`ending.*.title` / `ending.*.body` key pair the code feeds to `tr.t`. -/
def check_ending (gs : GameState) (max_turns : Int) :
    Except Unit (Option (String × String)) :=
  andThenCheck (stat_boundary_check gs "joy" "JOY_LOW" "JOY_HIGH") (fun _ =>
  andThenCheck (stat_boundary_check gs "sadness" "SADNESS_LOW" "SADNESS_HIGH") (fun _ =>
  andThenCheck (stat_boundary_check gs "anger" "ANGER_LOW" "ANGER_HIGH") (fun _ =>
  andThenCheck (stat_boundary_check gs "fear" "FEAR_LOW" "FEAR_HIGH") (fun _ =>
  andThenCheck (stat_boundary_check gs "calm" "CALM_LOW" "CALM_HIGH") (fun _ =>
  if max_turns ≤ gs.turn then
    if gs.flags.contains "resonance_ready" then
      .ok (some ("ending.RESONANCE.title", "ending.RESONANCE.body"))
    else
      .ok (some ("ending.HARMONY.title", "ending.HARMONY.body"))
  else
    .ok none)))))

/-- show_end mirrors the engine-visible part of `GameRoot.show_end`: the
final-stats line reads the five hardcoded keys (raising `KeyError` if one is
missing), the stage is replaced by the end screen and the outcome recorded. -/
def show_end (g : GameRoot) (e : String × String) : Except Unit GameRoot :=
  match dictGet g.gs.stats "joy", dictGet g.gs.stats "sadness",
        dictGet g.gs.stats "anger", dictGet g.gs.stats "fear",
        dictGet g.gs.stats "calm" with
  | some _, some _, some _, some _, some _ =>
      .ok { g with ended := true, ending := some e }
  | _, _, _, _, _ => .error ()

/-- resolve_after models the tail of `GameRoot.decide` after the branch has
been applied and the turn incremented (the state g2 plays the role of the
mutated `self`): ask `check_ending`, and either propagate its error, show
the ending, or draw the next card. -/
def resolve_after (choose : List CardDef → List Int → Nat) (g2 : GameRoot) :
    Except Unit GameRoot :=
  match check_ending g2.gs g2.max_turns with
  | .error e => .error e
  | .ok (some e) => show_end g2 e
  | .ok none => next_card choose g2

/-- GameRoot.decide mirrors `GameRoot.decide(direction)`: bail out if the
card widget holds no (truthy) card id or the id matches no card; apply the
left branch when `direction == "L"` and the right branch otherwise;
increment the turn; then either show the ending or draw the next card. -/
def GameRoot.decide (rng : Int → Int → Int) (choose : List CardDef → List Int → Nat)
    (g : GameRoot) (direction : String) : Except Unit GameRoot :=
  match g.card_id with
  | none => .ok g
  | some cid =>
      if cid = "" then .ok g
      else
        match g.cards.find? (fun x => x.id == cid) with
        | none => .ok g
        | some c =>
            let gs1 :=
              if direction = "L" then
                { g.gs with
                    stats := apply_effects rng g.gs.stats c.effects_left,
                    flags := apply_flags g.gs.flags c.set_flags_left c.clear_flags_left }
              else
                { g.gs with
                    stats := apply_effects rng g.gs.stats c.effects_right,
                    flags := apply_flags g.gs.flags c.set_flags_right c.clear_flags_right }
            let g2 : GameRoot := { g with gs := { gs1 with turn := gs1.turn + 1 } }
            resolve_after choose g2

/-- init_game_root mirrors `GameRoot.__init__` run from a loaded deck: every
declared stat starts at 50, flags empty, turn 0, and the first card is drawn
(`self.next_card()`); the purely visual widget setup is omitted. -/
def init_game_root (choose : List CardDef → List Int → Nat) (deck : Deck) :
    Except Unit GameRoot :=
  let gs : GameState :=
    { stats := deck.stats.foldl (fun d k => dictSet d k 50) []
      flags := []
      turn := 0
      last_card_id := none }
  next_card choose
    { stats_keys := deck.stats
      max_turns := deck.max_turns
      cards := deck.cards
      gs := gs
      card_id := none
      ended := false
      ending := none }

/-- Reachable states of the engine: a freshly initialised run from any deck,
closed under successful `decide` steps with arbitrary injected randomness and
direction strings. -/
inductive Reachable : GameRoot → Prop where
  | init (choose : List CardDef → List Int → Nat) (deck : Deck) (g : GameRoot) :
      init_game_root choose deck = .ok g → Reachable g
  | step (rng : Int → Int → Int) (choose : List CardDef → List Int → Nat)
      (dir : String) (g g' : GameRoot) :
      Reachable g → g.decide rng choose dir = .ok g' → Reachable g'

/-- choose0 is a concrete chooser for scenario runs: always index 0 (the
deterministic stand-in for `random.choices` on the pools below). -/
def choose0 : List CardDef → List Int → Nat := fun _ _ => 0

/-- rng0 is a concrete sampler for scenario runs: `randint lo hi` returns
`lo` (all scenario cards use fixed effects, so it is never consulted). -/
def rng0 : Int → Int → Int := fun lo _ => lo

/-- five_stat_keys is the hardcoded stat-key order of `check_ending`. -/
def five_stat_keys : List String := ["joy", "sadness", "anger", "fear", "calm"]

/-- card8 is scenario 1's card: left branch carries the single fixed effect
joy: -40. -/
def card8 : CardDef :=
  { id := "c8", weight := 1, require_flags := [], forbid_flags := []
    effects_left := [("joy", .fixed (-40))], effects_right := []
    set_flags_left := [], set_flags_right := []
    clear_flags_left := [], clear_flags_right := [] }

/-- deck8 is scenario 1's deck: the five standard stats and card8. -/
def deck8 : Deck := { stats := five_stat_keys, max_turns := 10, cards := [card8] }

/-- g8_0 is the freshly initialised scenario-1 run. -/
def g8_0 : Except Unit GameRoot := init_game_root choose0 deck8

/-- g8_1 is scenario 1 after one left decision (joy driven to 0, run ended). -/
def g8_1 : Except Unit GameRoot := g8_0.bind (fun g => g.decide rng0 choose0 "L")

/-- g8_2 is scenario 1 after a second left decision submitted to the already
ended run. -/
def g8_2 : Except Unit GameRoot := g8_1.bind (fun g => g.decide rng0 choose0 "L")

/-- card9 is scenario 2's card: no stat effects, right branch sets the flag
"resonance_ready". -/
def card9 : CardDef :=
  { id := "c9", weight := 1, require_flags := [], forbid_flags := []
    effects_left := [], effects_right := []
    set_flags_left := [], set_flags_right := ["resonance_ready"]
    clear_flags_left := [], clear_flags_right := [] }

/-- deck9 is scenario 2's deck: turn limit 3 and card9. -/
def deck9 : Deck := { stats := five_stat_keys, max_turns := 3, cards := [card9] }

/-- g9_3 is scenario 2 after three right decisions. -/
def g9_3 : Except Unit GameRoot :=
  (init_game_root choose0 deck9).bind (fun g => g.decide rng0 choose0 "R")
    |>.bind (fun g => g.decide rng0 choose0 "R")
    |>.bind (fun g => g.decide rng0 choose0 "R")

/-- card6 carries a right-branch effect joy: -10 and an empty left branch,
to observe which branch an invalid direction lands in. -/
def card6 : CardDef :=
  { id := "c6", weight := 1, require_flags := [], forbid_flags := []
    effects_left := [], effects_right := [("joy", .fixed (-10))]
    set_flags_left := [], set_flags_right := []
    clear_flags_left := [], clear_flags_right := [] }

/-- deck6 is the invalid-direction scenario deck. -/
def deck6 : Deck := { stats := five_stat_keys, max_turns := 10, cards := [card6] }

/-- g6_x is the invalid-direction run: the direction "X" submitted once. -/
def g6_x : Except Unit GameRoot :=
  (init_game_root choose0 deck6).bind (fun g => g.decide rng0 choose0 "X")

/-- card2 carries the left-branch fixed effect joy: -1, producing the
half-integer 48.5. -/
def card2 : CardDef :=
  { id := "c2", weight := 1, require_flags := [], forbid_flags := []
    effects_left := [("joy", .fixed (-1))], effects_right := []
    set_flags_left := [], set_flags_right := []
    clear_flags_left := [], clear_flags_right := [] }

/-- deck2 is the rounding-scenario deck. -/
def deck2 : Deck := { stats := five_stat_keys, max_turns := 10, cards := [card2] }

/-- g2_1 is the rounding scenario after one left decision. -/
def g2_1 : Except Unit GameRoot :=
  (init_game_root choose0 deck2).bind (fun g => g.decide rng0 choose0 "L")

/-- card_bad violates three of the spec's validation rules at once: an
effect key "love" outside the declared stats and a range with lo > hi, in a
deck whose turn limit is 0. -/
def card_bad : CardDef :=
  { id := "bad", weight := 1, require_flags := [], forbid_flags := []
    effects_left := [("love", .range 5 1)], effects_right := []
    set_flags_left := [], set_flags_right := []
    clear_flags_left := [], clear_flags_right := [] }

/-- deck_bad is an invalid deck (unknown effect key, lo > hi range,
non-positive turn limit) with a non-empty card list. -/
def deck_bad : Deck := { stats := five_stat_keys, max_turns := 0, cards := [card_bad] }

/-- deck_empty is an invalid deck whose card list is empty. -/
def deck_empty : Deck := { stats := five_stat_keys, max_turns := 5, cards := [] }

/-- gs10 is a run state whose stats mapping holds only the key "joy", at the
low boundary. -/
def gs10 : GameState := { stats := [("joy", 0)], flags := [], turn := 0, last_card_id := none }

/-- EligibleProp is the propositional reading of the eligibility rule: the
card is not the last-shown card, all required flags are present and no
forbidden flag is. -/
def EligibleProp (gs : GameState) (c : CardDef) : Prop :=
  gs.last_card_id ≠ some c.id ∧
  (∀ f ∈ c.require_flags, f ∈ gs.flags) ∧
  (∀ f ∈ c.forbid_flags, f ∉ gs.flags)

instance (gs : GameState) (c : CardDef) : Decidable (EligibleProp gs c) := by
  unfold EligibleProp; infer_instance

/-- boundary_checks lists the (key, low outcome, high outcome) triples of
the five boundary blocks of `check_ending`, in check order. -/
def boundary_checks : List (String × String × String) :=
  [("joy", "JOY_LOW", "JOY_HIGH"), ("sadness", "SADNESS_LOW", "SADNESS_HIGH"),
   ("anger", "ANGER_LOW", "ANGER_HIGH"), ("fear", "FEAR_LOW", "FEAR_HIGH"),
   ("calm", "CALM_LOW", "CALM_HIGH")]

/-- run_checks folds a list of boundary blocks into the early-return chain
shape of `check_ending`, ending in `tail` (the turn-limit block). -/
def run_checks (gs : GameState) (l : List (String × String × String))
    (tail : Except Unit (Option (String × String))) :
    Except Unit (Option (String × String)) :=
  match l with
  | [] => tail
  | t :: rest => andThenCheck (stat_boundary_check gs t.1 t.2.1 t.2.2)
      (fun _ => run_checks gs rest tail)

/-- turn_check is the final turn-limit block of `check_ending`. -/
def turn_check (gs : GameState) (mt : Int) : Except Unit (Option (String × String)) :=
  if mt ≤ gs.turn then
    if gs.flags.contains "resonance_ready" then
      .ok (some ("ending.RESONANCE.title", "ending.RESONANCE.body"))
    else
      .ok (some ("ending.HARMONY.title", "ending.HARMONY.body"))
  else
    .ok none

/-- keys_present asks whether every key of the list is present in the stats
mapping. -/
def keys_present (gs : GameState) (ks : List String) : Bool :=
  ks.all (fun k => (dictGet gs.stats k).isSome)

/-- boundary_hit asks whether some key of the list is present in the stats
mapping with a value at a boundary (at most 0 or at least 100). -/
def boundary_hit (gs : GameState) (ks : List String) : Bool :=
  ks.any (fun k =>
    match dictGet gs.stats k with
    | some v => if v ≤ 0 then true else if 100 ≤ v then true else false
    | none => false)

/-- all_five_present asks whether the five hardcoded stat keys of
`check_ending` are all present in the stats mapping. -/
def all_five_present (gs : GameState) : Bool :=
  keys_present gs five_stat_keys

/-- stat_at_boundary asks whether one of the five hardcoded stats is present
and at a boundary (value at most 0 or at least 100). -/
def stat_at_boundary (gs : GameState) : Bool :=
  boundary_hit gs five_stat_keys

/-- check_outcomes lists the low and high outcome key pairs of a list of
boundary blocks, in check order. -/
def check_outcomes : List (String × String × String) → List (String × String)
  | [] => []
  | t :: rest =>
      ("ending." ++ t.2.1 ++ ".title", "ending." ++ t.2.1 ++ ".body") ::
      ("ending." ++ t.2.2 ++ ".title", "ending." ++ t.2.2 ++ ".body") ::
      check_outcomes rest

/-- stat_boundary_outcomes lists the ten stat-boundary ending key pairs of
`check_ending`, in check order. -/
def stat_boundary_outcomes : List (String × String) :=
  check_outcomes boundary_checks

/-- harmony_pair is the baseline turn-limit success outcome of `check_ending`. -/
def harmony_pair : String × String := ("ending.HARMONY.title", "ending.HARMONY.body")

/-- resonance_pair is the flag-keyed turn-limit success outcome of
`check_ending`. -/
def resonance_pair : String × String := ("ending.RESONANCE.title", "ending.RESONANCE.body")

/-- is_stat_boundary_result asks whether a `check_ending` result is a
stat-boundary outcome (as opposed to an error, no ending, or a turn-limit
outcome). -/
def is_stat_boundary_result (r : Except Unit (Option (String × String))) : Bool :=
  match r with
  | .ok (some p) => stat_boundary_outcomes.contains p
  | _ => false

/-- deck_valid_spec formalises the deck-validation contract of the spec (§4.1),
from the spec's words rather than the source, for comparison with the code's
loading path: every effect key is a declared stat, every range has lo ≤ hi,
the turn limit is positive, and the card list is non-empty. -/
def deck_valid_spec (d : Deck) : Bool :=
  d.cards.all (fun c =>
    (c.effects_left ++ c.effects_right).all (fun p => d.stats.contains p.1)) &&
  d.cards.all (fun c =>
    (c.effects_left ++ c.effects_right).all (fun p =>
      match p.2 with
      | .range lo hi => decide (lo ≤ hi)
      | .fixed _ => true)) &&
  decide (0 < d.max_turns) &&
  !d.cards.isEmpty

/-- g8_init is the explicit value of the freshly initialised scenario-1 run,
used to instantiate reachability statements at a concrete state. -/
def g8_init : GameRoot :=
  { stats_keys := five_stat_keys
    max_turns := 10
    cards := [card8]
    gs := { stats := [("joy", 50), ("sadness", 50), ("anger", 50), ("fear", 50), ("calm", 50)]
            flags := [], turn := 0, last_card_id := some "c8" }
    card_id := some "c8"
    ended := false
    ending := none }

/-- g8_end is the explicit value of the ended scenario-1 run (after the left
decision drove joy to 0). -/
def g8_end : GameRoot :=
  { stats_keys := five_stat_keys
    max_turns := 10
    cards := [card8]
    gs := { stats := [("joy", 0), ("sadness", 50), ("anger", 50), ("fear", 50), ("calm", 50)]
            flags := [], turn := 1, last_card_id := some "c8" }
    card_id := some "c8"
    ended := true
    ending := some ("ending.JOY_LOW.title", "ending.JOY_LOW.body") }

/-- gs_both is a run state where a stat is at a boundary and the turn limit
is reached at the same time (turn 3 against a limit of 3, joy at 0). -/
def gs_both : GameState :=
  { stats := [("joy", 0), ("sadness", 50), ("anger", 50), ("fear", 50), ("calm", 50)]
    flags := [], turn := 3, last_card_id := none }

/-- gs_res is a run state at the turn limit with all stats in range and the
favorable flag set. -/
def gs_res : GameState :=
  { stats := [("joy", 50), ("sadness", 50), ("anger", 50), ("fear", 50), ("calm", 50)]
    flags := ["resonance_ready"], turn := 3, last_card_id := none }

theorem dictGet_mem {d : List (String × Rat)} {k : String} {v : Rat}
    (h : dictGet d k = some v) : ∃ p, p ∈ d ∧ p.2 = v := by
  unfold dictGet at h
  cases hf : d.find? (fun p => p.1 == k) with
  | none => rw [hf] at h; cases h
  | some p =>
      rw [hf] at h
      exact ⟨p, List.mem_of_find?_eq_some hf, by cases h; rfl⟩

theorem eligible_pred_iff (gs : GameState) (c : CardDef) :
    ((!(some c.id == gs.last_card_id) &&
      !(c.require_flags.any (fun f => !(gs.flags.contains f))) &&
      !(c.forbid_flags.any (fun f => gs.flags.contains f))) = true) ↔ EligibleProp gs c := by
  simp [EligibleProp, List.contains_eq_any_beq]
  constructor
  · rintro ⟨⟨h1, h2⟩, h3⟩
    exact ⟨fun hh => h1 hh.symm, h2, h3⟩
  · rintro ⟨h1, h2, h3⟩
    exact ⟨⟨fun hh => h1 hh.symm, h2⟩, h3⟩

theorem eligible_cards_ne_nil (gs : GameState) (cards : List CardDef) (h : cards ≠ []) :
    eligible_cards gs cards ≠ [] := by
  intro hnil
  unfold eligible_cards at hnil
  dsimp only at hnil
  split at hnil
  · exact h hnil
  · next hne => rw [hnil] at hne; simp at hne

theorem run_checks_master (gs : GameState) (l : List (String × String × String))
    (tail : Except Unit (Option (String × String))) :
    (keys_present gs (l.map (fun t => t.1)) = false ∧ run_checks gs l tail = .error ()) ∨
    (boundary_hit gs (l.map (fun t => t.1)) = true ∧
      ∃ p, p ∈ check_outcomes l ∧ run_checks gs l tail = .ok (some p)) ∨
    (keys_present gs (l.map (fun t => t.1)) = true ∧
      boundary_hit gs (l.map (fun t => t.1)) = false ∧ run_checks gs l tail = tail) := by
  induction l with
  | nil => exact Or.inr (Or.inr ⟨rfl, rfl, rfl⟩)
  | cons t rest ih =>
      cases h : dictGet gs.stats t.1 with
      | none =>
          refine Or.inl ⟨?_, ?_⟩
          · simp [keys_present, h]
          · simp [run_checks, stat_boundary_check, h, andThenCheck]
      | some v =>
          by_cases h0 : v ≤ 0
          · refine Or.inr (Or.inl ⟨?_,
              ("ending." ++ t.2.1 ++ ".title", "ending." ++ t.2.1 ++ ".body"), ?_, ?_⟩)
            · simp [boundary_hit, h, h0]
            · simp [check_outcomes]
            · simp [run_checks, stat_boundary_check, h, h0, andThenCheck]
          · by_cases h100 : 100 ≤ v
            · refine Or.inr (Or.inl ⟨?_,
                ("ending." ++ t.2.2 ++ ".title", "ending." ++ t.2.2 ++ ".body"), ?_, ?_⟩)
              · simp [boundary_hit, h, h0, h100]
              · simp [check_outcomes]
              · simp [run_checks, stat_boundary_check, h, h0, h100, andThenCheck]
            · have hrw : run_checks gs (t :: rest) tail = run_checks gs rest tail := by
                simp [run_checks, stat_boundary_check, h, h0, h100, andThenCheck]
              have hkey : (dictGet gs.stats t.1).isSome = true := by simp [h]
              have hbd :
                  (match dictGet gs.stats t.1 with
                   | some v => if v ≤ 0 then true else if 100 ≤ v then true else false
                   | none => false) = false := by
                simp [h, h0, h100]
              rcases ih with ⟨hk, hr⟩ | ⟨hb, p, hp, hr⟩ | ⟨hk, hb, hr⟩
              · refine Or.inl ⟨?_, by rw [hrw, hr]⟩
                simp only [keys_present, List.map_cons, List.all_cons, hkey, Bool.true_and]
                exact hk
              · refine Or.inr (Or.inl ⟨?_, p, ?_, by rw [hrw, hr]⟩)
                · simp only [boundary_hit, List.map_cons, List.any_cons, hbd, Bool.false_or]
                  exact hb
                · exact List.mem_cons_of_mem _ (List.mem_cons_of_mem _ hp)
              · refine Or.inr (Or.inr ⟨?_, ?_, by rw [hrw, hr]⟩)
                · simp only [keys_present, List.map_cons, List.all_cons, hkey, Bool.true_and]
                  exact hk
                · simp only [boundary_hit, List.map_cons, List.any_cons, hbd, Bool.false_or]
                  exact hb

theorem check_ending_master (gs : GameState) (mt : Int) :
    (all_five_present gs = false ∧ check_ending gs mt = .error ()) ∨
    (stat_at_boundary gs = true ∧ is_stat_boundary_result (check_ending gs mt) = true) ∨
    (all_five_present gs = true ∧ stat_at_boundary gs = false ∧
      check_ending gs mt = turn_check gs mt) := by
  have e : check_ending gs mt = run_checks gs boundary_checks (turn_check gs mt) := rfl
  have e2 : all_five_present gs = keys_present gs (boundary_checks.map (fun t => t.1)) := rfl
  have e3 : stat_at_boundary gs = boundary_hit gs (boundary_checks.map (fun t => t.1)) := rfl
  rcases run_checks_master gs boundary_checks (turn_check gs mt) with
    ⟨hk, hr⟩ | ⟨hb, p, hp, hr⟩ | ⟨hk, hb, hr⟩
  · exact Or.inl ⟨by rw [e2, hk], by rw [e, hr]⟩
  · refine Or.inr (Or.inl ⟨by rw [e3, hb], ?_⟩)
    rw [e, hr]
    simp only [is_stat_boundary_result]
    have hmem : p ∈ stat_boundary_outcomes := hp
    simpa using hmem
  · exact Or.inr (Or.inr ⟨by rw [e2, hk], by rw [e3, hb], by rw [e, hr]⟩)

/-- C3: stat boundaries take priority over the turn limit in `check_ending`:
whenever the five checked stats are present, some stat is at a boundary and
the turn limit is reached, the result is a stat-boundary outcome; and a
turn-limit outcome (HARMONY or RESONANCE) is returned only when no checked
stat is out of bounds. -/
theorem c3_boundary_priority :
    (∀ (gs : GameState) (mt : Int),
      all_five_present gs = true → stat_at_boundary gs = true → mt ≤ gs.turn →
      is_stat_boundary_result (check_ending gs mt) = true) ∧
    (∀ (gs : GameState) (mt : Int),
      (check_ending gs mt = .ok (some harmony_pair) ∨
       check_ending gs mt = .ok (some resonance_pair)) →
      stat_at_boundary gs = false) := by
  constructor
  · intro gs mt h5 hb _
    rcases check_ending_master gs mt with ⟨hk, _⟩ | ⟨_, hr⟩ | ⟨_, hbf, _⟩
    · rw [h5] at hk; cases hk
    · exact hr
    · rw [hb] at hbf; cases hbf
  · intro gs mt h
    rcases check_ending_master gs mt with ⟨_, hr⟩ | ⟨_, hr⟩ | ⟨_, hbf, _⟩
    · rcases h with h | h <;> rw [h] at hr <;> cases hr
    · rcases h with h | h <;> rw [h] at hr <;> exact absurd hr (by decide)
    · exact hbf

/-- c3_witness instantiates claim C3 at a state where joy is at its low
boundary and the turn counter equals the turn limit 3. -/
theorem c3_witness : is_stat_boundary_result (check_ending gs_both 3) = true :=
  c3_boundary_priority.1 gs_both 3 (by decide) (by decide) (by decide)

/-- C9: at the turn limit with every checked stat strictly inside (0,100),
the success outcome is keyed by the favorable flag — RESONANCE when
"resonance_ready" is in the flag set, HARMONY otherwise; and in scenario 2
(turn limit 3, one card whose right branch sets "resonance_ready" and has
no stat effects) three right decisions end the run with RESONANCE. -/
theorem c9_favorable_flag :
    (∀ (gs : GameState) (mt : Int) (j s a f c : Rat),
      dictGet gs.stats "joy" = some j → 0 < j → j < 100 →
      dictGet gs.stats "sadness" = some s → 0 < s → s < 100 →
      dictGet gs.stats "anger" = some a → 0 < a → a < 100 →
      dictGet gs.stats "fear" = some f → 0 < f → f < 100 →
      dictGet gs.stats "calm" = some c → 0 < c → c < 100 →
      mt ≤ gs.turn →
      check_ending gs mt =
        .ok (some (if gs.flags.contains "resonance_ready" then resonance_pair
                   else harmony_pair))) ∧
    g9_3.toOption.map (fun g => g.ending) = some (some resonance_pair) := by
  constructor
  · intro gs mt j s a f c hj hj0 hj1 hs hs0 hs1 ha ha0 ha1 hf hf0 hf1 hc hc0 hc1 ht
    rcases check_ending_master gs mt with ⟨hk, _⟩ | ⟨hb, _⟩ | ⟨_, _, hr⟩
    · exfalso
      simp [all_five_present, keys_present, five_stat_keys, hj, hs, ha, hf, hc] at hk
    · exfalso
      simp [stat_at_boundary, boundary_hit, five_stat_keys, hj, hs, ha, hf, hc,
        not_le.mpr hj0, not_le.mpr hj1, not_le.mpr hs0, not_le.mpr hs1,
        not_le.mpr ha0, not_le.mpr ha1, not_le.mpr hf0, not_le.mpr hf1,
        not_le.mpr hc0, not_le.mpr hc1] at hb
    · rw [hr]
      unfold turn_check
      rw [if_pos ht]
      cases hres : gs.flags.contains "resonance_ready" <;>
        simp [hres, harmony_pair, resonance_pair]
  · decide

/-- c9_witness instantiates claim C9 at a turn-limit state carrying the
favorable flag. -/
theorem c9_witness :
    check_ending gs_res 3 =
      .ok (some (if gs_res.flags.contains "resonance_ready" then resonance_pair
                 else harmony_pair)) :=
  c9_favorable_flag.1 gs_res 3 50 50 50 50 50 (by decide) (by decide) (by decide)
    (by decide) (by decide) (by decide) (by decide) (by decide) (by decide)
    (by decide) (by decide) (by decide) (by decide) (by decide) (by decide)
    (by decide)

/-- C10 (amended): `check_ending` reads the five hardcoded keys joy, sadness,
anger, fear, calm in that fixed order whatever the deck declares,
short-circuiting at the first boundary hit: presence of all five keys
guarantees no missing-key error; a "no ending" or turn-limit result means
all five keys were read, so they are all present; and a missing "joy" key
(the first check) always raises. -/
theorem c10_hardcoded_keys :
    (∀ (gs : GameState) (mt : Int), all_five_present gs = true →
      check_ending gs mt ≠ .error ()) ∧
    (∀ (gs : GameState) (mt : Int),
      (check_ending gs mt = .ok none ∨ check_ending gs mt = .ok (some harmony_pair) ∨
       check_ending gs mt = .ok (some resonance_pair)) →
      all_five_present gs = true) ∧
    (∀ (gs : GameState) (mt : Int), dictGet gs.stats "joy" = none →
      check_ending gs mt = .error ()) := by
  refine ⟨?_, ?_, ?_⟩
  · intro gs mt h5
    rcases check_ending_master gs mt with ⟨hk, _⟩ | ⟨_, hr⟩ | ⟨_, _, hr⟩
    · rw [h5] at hk; cases hk
    · intro hne
      rw [hne] at hr
      exact absurd hr (by decide)
    · rw [hr]
      unfold turn_check
      split_ifs <;> simp
  · intro gs mt h
    rcases check_ending_master gs mt with ⟨_, hr⟩ | ⟨_, hr⟩ | ⟨hk, _, _⟩
    · rcases h with h | h | h <;> rw [h] at hr <;> cases hr
    · rcases h with h | h | h <;> rw [h] at hr <;> exact absurd hr (by decide)
    · exact hk
  · intro gs mt h
    simp [check_ending, stat_boundary_check, h, andThenCheck]

/-- c10_witness instantiates the amended claim C10 at the initial
scenario-1 state, where all five keys are present. -/
theorem c10_witness : check_ending g8_init.gs 10 ≠ .error () :=
  c10_hardcoded_keys.1 g8_init.gs 10 (by decide)

theorem show_end_cases (g : GameRoot) (e : String × String) :
    show_end g e = .error () ∨
    show_end g e = .ok { g with ended := true, ending := some e } := by
  unfold show_end
  cases dictGet g.gs.stats "joy" <;> cases dictGet g.gs.stats "sadness" <;>
    cases dictGet g.gs.stats "anger" <;> cases dictGet g.gs.stats "fear" <;>
    cases dictGet g.gs.stats "calm" <;> simp

theorem next_card_cases (choose : List CardDef → List Int → Nat) (g : GameRoot) :
    next_card choose g = .error () ∨
    ∃ c : CardDef, next_card choose g =
      .ok { g with gs := { g.gs with last_card_id := some c.id }, card_id := some c.id } := by
  unfold next_card
  cases pick_card choose g.gs g.cards with
  | none => exact Or.inl rfl
  | some c => exact Or.inr ⟨c, rfl⟩

theorem next_card_isOk (g : GameRoot) (h : g.cards ≠ []) :
    (next_card choose0 g).isOk = true := by
  unfold next_card pick_card
  dsimp only [choose0]
  cases hp : eligible_cards g.gs g.cards with
  | nil => exact absurd hp (eligible_cards_ne_nil _ _ h)
  | cons a l => simp [Except.isOk, Except.toBool]

theorem resolve_after_cases (choose : List CardDef → List Int → Nat) (g2 : GameRoot) :
    resolve_after choose g2 = .error () ∨
    (resolve_after choose g2).toOption.map (fun x : GameRoot => x.gs.turn)
      = some g2.gs.turn := by
  unfold resolve_after
  cases hce : check_ending g2.gs g2.max_turns with
  | error e => cases e; exact Or.inl rfl
  | ok o =>
      cases o with
      | some e =>
          dsimp only
          rcases show_end_cases g2 e with hs | hs <;> rw [hs]
          · exact Or.inl rfl
          · exact Or.inr rfl
      | none =>
          dsimp only
          rcases next_card_cases choose g2 with hn | ⟨c2, hn⟩ <;> rw [hn]
          · exact Or.inl rfl
          · exact Or.inr rfl

/-- C4 (amended): `eligible_cards` returns exactly the cards that are not
lastCardId, have all their requireFlags present and none of their
forbidFlags present; when that filter is empty it returns the full card
list, so the result is non-empty whenever the card list is non-empty, and
the previously shown card can recur only in that fallback case. -/
theorem c4_eligible_characterization :
    (∀ (gs : GameState) (cards : List CardDef) (c : CardDef),
      c ∈ eligible_cards gs cards ↔
        ((c ∈ cards ∧ EligibleProp gs c) ∨
         ((∀ x ∈ cards, ¬ EligibleProp gs x) ∧ c ∈ cards))) ∧
    (∀ (gs : GameState) (cards : List CardDef),
      cards ≠ [] → eligible_cards gs cards ≠ []) ∧
    (∀ (gs : GameState) (cards : List CardDef) (c : CardDef),
      c ∈ eligible_cards gs cards → gs.last_card_id = some c.id →
      ∀ x ∈ cards, ¬ EligibleProp gs x) := by
  have hmain : ∀ (gs : GameState) (cards : List CardDef) (c : CardDef),
      c ∈ eligible_cards gs cards ↔
        ((c ∈ cards ∧ EligibleProp gs c) ∨
         ((∀ x ∈ cards, ¬ EligibleProp gs x) ∧ c ∈ cards)) := by
    intro gs cards c
    unfold eligible_cards
    dsimp only
    split
    · next hemp =>
        rw [List.isEmpty_eq_true, List.filter_eq_nil_iff] at hemp
        have hallP : ∀ x ∈ cards, ¬ EligibleProp gs x := fun x hx hP =>
          hemp x hx ((eligible_pred_iff gs x).mpr hP)
        constructor
        · intro hc
          exact Or.inr ⟨hallP, hc⟩
        · rintro (⟨hc, _⟩ | ⟨_, hc⟩) <;> exact hc
    · next hemp =>
        rw [Bool.not_eq_true, List.isEmpty_eq_false] at hemp
        obtain ⟨y, hy⟩ := List.exists_mem_of_ne_nil _ hemp
        rw [List.mem_filter] at hy
        obtain ⟨hyc, hyp⟩ := hy
        have hyP : EligibleProp gs y := (eligible_pred_iff gs y).mp hyp
        rw [List.mem_filter]
        constructor
        · rintro ⟨hc, hp⟩
          exact Or.inl ⟨hc, (eligible_pred_iff gs c).mp hp⟩
        · rintro (⟨hc, hP⟩ | ⟨hall, _⟩)
          · exact ⟨hc, (eligible_pred_iff gs c).mpr hP⟩
          · exact absurd hyP (hall y hyc)
  refine ⟨hmain, fun gs cards => eligible_cards_ne_nil gs cards, ?_⟩
  intro gs cards c hc hlast x hx
  rcases (hmain gs cards c).mp hc with ⟨_, hP, _, _⟩ | ⟨hall, _⟩
  · exact absurd hlast hP
  · exact hall x hx

/-- c4_witness instantiates the amended claim C4's non-emptiness part at a
concrete state and one-card list. -/
theorem c4_witness : eligible_cards g8_init.gs [card8] ≠ [] :=
  c4_eligible_characterization.2.1 g8_init.gs [card8] (by decide)

/-- C6 (amended): a decision direction other than "L" is not rejected as a
no-op: the code's else-branch treats it exactly like "R" and applies the
right branch. -/
theorem c6_direction_fallback :
    ∀ (rng : Int → Int → Int) (choose : List CardDef → List Int → Nat)
      (g : GameRoot) (dir : String), dir ≠ "L" →
      g.decide rng choose dir = g.decide rng choose "R" := by
  intro rng choose g dir h
  unfold GameRoot.decide
  cases g.card_id with
  | none => rfl
  | some cid =>
      by_cases hc : cid = ""
      · simp only [hc, if_pos]
      · simp only [if_neg hc]
        cases g.cards.find? (fun x => x.id == cid) with
        | none => rfl
        | some c =>
            simp only [if_neg h, if_neg (show ("R" : String) ≠ "L" by decide)]

/-- c6_witness instantiates claim C6 at the initial scenario-1 state with
the invalid direction "X". -/
theorem c6_witness :
    g8_init.decide rng0 choose0 "X" = g8_init.decide rng0 choose0 "R" :=
  c6_direction_fallback rng0 choose0 g8_init "X" (by decide)

/-- C5 (amended): the engine's `decide` performs no ended-state check: it is
a no-op only when no card id is loaded in the card widget; after the run has
ended, a further decision with the current card still loaded either raises
or re-applies the branch and increments the turn counter. -/
theorem c5_decide_after_end :
    (∀ (rng : Int → Int → Int) (choose : List CardDef → List Int → Nat)
      (g : GameRoot) (dir : String), g.card_id = none →
      g.decide rng choose dir = .ok g) ∧
    (∀ (rng : Int → Int → Int) (choose : List CardDef → List Int → Nat)
      (g : GameRoot) (dir : String) (cid : String) (c : CardDef),
      g.ended = true → g.card_id = some cid → cid ≠ "" →
      g.cards.find? (fun x => x.id == cid) = some c →
      (g.decide rng choose dir = .error () ∨
       (g.decide rng choose dir).toOption.map (fun x => x.gs.turn)
         = some (g.gs.turn + 1))) := by
  constructor
  · intro rng choose g dir h
    unfold GameRoot.decide
    rw [h]
  · intro rng choose g dir cid c _ hcid hne hfind
    unfold GameRoot.decide
    rw [hcid]
    dsimp only
    rw [if_neg hne, hfind]
    dsimp only
    by_cases hd : dir = "L"
    · rw [if_pos hd]
      exact resolve_after_cases choose _
    · rw [if_neg hd]
      exact resolve_after_cases choose _

/-- c5_witness instantiates the amended claim C5 at the concrete ended
scenario-1 state. -/
theorem c5_witness :
    g8_end.decide rng0 choose0 "L" = .error () ∨
    (g8_end.decide rng0 choose0 "L").toOption.map (fun x => x.gs.turn)
      = some (g8_end.gs.turn + 1) :=
  c5_decide_after_end.2 rng0 choose0 g8_end "L" "c8" card8 (by decide) (by decide)
    (by decide) (by decide)

/-- C7 (amended): deck loading and run start perform none of the spec's
validation: every deck with a non-empty card list is accepted and a run
starts, whatever its effect keys, ranges or turn limit (an unknown effect
key is silently skipped when its effect is applied); only an empty card
list fails, and then through an error in the first card draw rather than a
configuration check. -/
theorem c7_no_validation :
    (∀ (deck : Deck), deck.cards ≠ [] → (init_game_root choose0 deck).isOk = true) ∧
    ((init_game_root choose0 deck_empty).isOk = false) ∧
    (∀ (rng : Int → Int → Int) (st : List (String × Rat)) (k : String) (v : EffectValue),
      dictGet st k = none → apply_effects rng st [(k, v)] = st) := by
  refine ⟨?_, by decide, ?_⟩
  · intro deck hne
    unfold init_game_root
    exact next_card_isOk _ hne
  · intro rng st k v h
    simp [apply_effects, h]

/-- c7_witness instantiates the amended claim C7's acceptance part at the
invalid deck deck_bad. -/
theorem c7_witness : (init_game_root choose0 deck_bad).isOk = true :=
  c7_no_validation.1 deck_bad (by decide)

theorem clamp_bounds (x : Rat) : 0 ≤ clamp x 0 100 ∧ clamp x 0 100 ≤ 100 := by
  unfold clamp
  exact ⟨le_max_left _ _, max_le (by norm_num) (min_le_left _ _)⟩

theorem dictSet_preserves {P : Rat → Prop} {d : List (String × Rat)} {k : String} {v : Rat}
    (hd : ∀ p ∈ d, P p.2) (hv : P v) : ∀ p ∈ dictSet d k v, P p.2 := by
  intro p hp
  unfold dictSet at hp
  split at hp
  · rw [List.mem_map] at hp
    obtain ⟨q, hq, hpq⟩ := hp
    by_cases hqk : (q.1 == k) = true
    · rw [if_pos hqk] at hpq
      rw [← hpq]
      exact hv
    · rw [if_neg hqk] at hpq
      rw [← hpq]
      exact hd q hq
  · rw [List.mem_append] at hp
    rcases hp with hp | hp
    · exact hd p hp
    · rw [List.mem_singleton] at hp
      rw [hp]
      exact hv

theorem apply_effects_preserves {P : Rat → Prop}
    (hP : ∀ (x : Rat) (n : Int), P x → P (clamp (x + 3 / 2 * (n : Rat)) 0 100))
    (rng : Int → Int → Int) (effects : List (String × EffectValue)) :
    ∀ (stats : List (String × Rat)), (∀ p ∈ stats, P p.2) →
      ∀ p ∈ apply_effects rng stats effects, P p.2 := by
  induction effects with
  | nil => intro stats hs; exact hs
  | cons eff rest ih =>
      intro stats hs
      have step : apply_effects rng stats (eff :: rest)
          = apply_effects rng
              (match dictGet stats eff.1 with
               | none => stats
               | some x => dictSet stats eff.1 (clamp (x + 3 / 2 * (roll rng eff.2 : Rat)) 0 100))
              rest := by
        unfold apply_effects
        rw [List.foldl_cons]
      rw [step]
      cases hg : dictGet stats eff.1 with
      | none => exact ih stats hs
      | some x =>
          have hx : P x := by
            obtain ⟨p, hp, hpe⟩ := dictGet_mem hg
            rw [← hpe]
            exact hs p hp
          exact ih _ (dictSet_preserves hs (hP x (roll rng eff.2) hx))

theorem next_card_preserves {P : Rat → Prop} (choose : List CardDef → List Int → Nat)
    (g g' : GameRoot) (h : next_card choose g = .ok g')
    (hs : ∀ p ∈ g.gs.stats, P p.2) : ∀ p ∈ g'.gs.stats, P p.2 := by
  rcases next_card_cases choose g with hn | ⟨c, hn⟩ <;> rw [hn] at h
  · cases h
  · injection h with h
    rw [← h]
    exact hs

theorem resolve_after_preserves {P : Rat → Prop} (choose : List CardDef → List Int → Nat)
    (g2 g' : GameRoot) (h : resolve_after choose g2 = .ok g')
    (hs : ∀ p ∈ g2.gs.stats, P p.2) : ∀ p ∈ g'.gs.stats, P p.2 := by
  unfold resolve_after at h
  cases hce : check_ending g2.gs g2.max_turns with
  | error e => rw [hce] at h; cases h
  | ok o =>
      rw [hce] at h
      cases o with
      | some e =>
          dsimp only at h
          rcases show_end_cases g2 e with hse | hse <;> rw [hse] at h
          · cases h
          · injection h with h
            rw [← h]
            exact hs
      | none =>
          dsimp only at h
          exact next_card_preserves choose g2 g' h hs

theorem decide_preserves {P : Rat → Prop}
    (hP : ∀ (x : Rat) (n : Int), P x → P (clamp (x + 3 / 2 * (n : Rat)) 0 100))
    (rng : Int → Int → Int) (choose : List CardDef → List Int → Nat) (dir : String)
    (g g' : GameRoot) (h : g.decide rng choose dir = .ok g')
    (hs : ∀ p ∈ g.gs.stats, P p.2) : ∀ p ∈ g'.gs.stats, P p.2 := by
  unfold GameRoot.decide at h
  cases hcid : g.card_id with
  | none =>
      rw [hcid] at h
      injection h with h
      rw [← h]
      exact hs
  | some cid =>
      rw [hcid] at h
      dsimp only at h
      by_cases hc : cid = ""
      · rw [if_pos hc] at h
        injection h with h
        rw [← h]
        exact hs
      · rw [if_neg hc] at h
        cases hfind : g.cards.find? (fun x => x.id == cid) with
        | none =>
            rw [hfind] at h
            injection h with h
            rw [← h]
            exact hs
        | some c =>
            rw [hfind] at h
            dsimp only at h
            by_cases hd : dir = "L"
            · rw [if_pos hd] at h
              exact resolve_after_preserves choose _ g' h
                (apply_effects_preserves hP rng _ _ hs)
            · rw [if_neg hd] at h
              exact resolve_after_preserves choose _ g' h
                (apply_effects_preserves hP rng _ _ hs)

theorem foldl_dictSet_preserves {P : Rat → Prop} (hP50 : P 50) :
    ∀ (ks : List String) (acc : List (String × Rat)), (∀ p ∈ acc, P p.2) →
      ∀ p ∈ ks.foldl (fun d k => dictSet d k 50) acc, P p.2 := by
  intro ks
  induction ks with
  | nil => intro acc h; exact h
  | cons k rest ih =>
      intro acc h
      rw [List.foldl_cons]
      exact ih _ (dictSet_preserves h hP50)

theorem init_preserves {P : Rat → Prop} (hP50 : P 50)
    (choose : List CardDef → List Int → Nat) (deck : Deck) (g : GameRoot)
    (h : init_game_root choose deck = .ok g) : ∀ p ∈ g.gs.stats, P p.2 := by
  unfold init_game_root at h
  exact next_card_preserves choose _ g h
    (foldl_dictSet_preserves hP50 deck.stats []
      (fun q hq => absurd hq (List.not_mem_nil q)))

theorem reachable_stats {P : Rat → Prop} (hP50 : P 50)
    (hP : ∀ (x : Rat) (n : Int), P x → P (clamp (x + 3 / 2 * (n : Rat)) 0 100)) :
    ∀ (g : GameRoot), Reachable g → ∀ p ∈ g.gs.stats, P p.2 := by
  intro g hg
  induction hg with
  | init choose deck g h => exact init_preserves hP50 choose deck g h
  | step rng choose dir g g' hg h ih => exact decide_preserves hP rng choose dir g g' h ih

/-- C1: in every reachable engine state every stat value lies in [0,100]:
the initial values are 50 and every mutation goes through clamp. -/
theorem c1_stat_range :
    ∀ (g : GameRoot), Reachable g → ∀ (k : String) (v : Rat),
      dictGet g.gs.stats k = some v → 0 ≤ v ∧ v ≤ 100 := by
  intro g hg k v hv
  obtain ⟨p, hp, hpe⟩ := dictGet_mem hv
  rw [← hpe]
  exact @reachable_stats (fun v => 0 ≤ v ∧ v ≤ 100) (by norm_num)
    (fun x n _ => clamp_bounds _) g hg p hp

/-- c1_witness instantiates claim C1 at the reachable initial scenario-1
state and its joy value 50. -/
theorem c1_witness : (0 : Rat) ≤ 50 ∧ (50 : Rat) ≤ 100 :=
  c1_stat_range g8_init (Reachable.init choose0 deck8 g8_init (by decide)) "joy" 50
    (by decide)

theorem half_int_clamp (x : Rat) (n : Int) (hx : (2 * x).den = 1) :
    (2 * clamp (x + 3 / 2 * (n : Rat)) 0 100).den = 1 := by
  unfold clamp
  rcases max_choice (0 : Rat) (min 100 (x + 3 / 2 * (n : Rat))) with hm | hm <;> rw [hm]
  · norm_num
  · rcases min_choice (100 : Rat) (x + 3 / 2 * (n : Rat)) with hm2 | hm2 <;> rw [hm2]
    · norm_num
    · have h2 : (2 : Rat) * (x + 3 / 2 * (n : Rat)) = 2 * x + 3 * (n : Rat) := by ring
      rw [h2]
      have hx2 : (((2 * x).num : Int) : Rat) = 2 * x := (Rat.den_eq_one_iff (2 * x)).mp hx
      rw [← hx2]
      have h3 : (((2 * x).num : Int) : Rat) + 3 * (n : Rat)
          = (((2 * x).num + 3 * n : Int) : Rat) := by push_cast; ring
      rw [h3]
      exact Rat.den_intCast _

/-- C2 (amended): the resolved delta is multiplied by exactly 1.5 in exact
arithmetic, added to the current value and clamped to [0,100], with no
rounding anywhere (a fixed effect n on a stat holding x yields exactly
clamp(x + 1.5 n)); consequently in every reachable state every stat value is
an integer multiple of one half — but not necessarily an integer. -/
theorem c2_half_integer_stats :
    (∀ (rng : Int → Int → Int) (st : List (String × Rat)) (k : String) (x : Rat) (n : Int),
      dictGet st k = some x →
      apply_effects rng st [(k, EffectValue.fixed n)]
        = dictSet st k (clamp (x + 3 / 2 * (n : Rat)) 0 100)) ∧
    (∀ (g : GameRoot), Reachable g → ∀ (k : String) (v : Rat),
      dictGet g.gs.stats k = some v → (2 * v).den = 1) := by
  constructor
  · intro rng st k x n h
    simp [apply_effects, h, roll]
  · intro g hg k v hv
    obtain ⟨p, hp, hpe⟩ := dictGet_mem hv
    rw [← hpe]
    exact @reachable_stats (fun v => (2 * v).den = 1) (by norm_num)
      (fun x n hx => half_int_clamp x n hx) g hg p hp

/-- c2_witness instantiates the amended claim C2 at the reachable initial
scenario-1 state and its joy value 50. -/
theorem c2_witness : (2 * (50 : Rat)).den = 1 :=
  c2_half_integer_stats.2 g8_init (Reachable.init choose0 deck8 g8_init (by decide))
    "joy" 50 (by decide)

unseal Rat.add Rat.mul Rat.inv Rat.sub in
/-- C8: with joy at its initial value 50 and a card whose left branch has
the single fixed effect joy: -40, one left decision drives joy to exactly
clamp(50 + 1.5 * (-40)) = 0 and the run ends with the low-boundary ending
for joy. -/
theorem c8_scenario_one :
    g8_1.toOption.map (fun g => (dictGet g.gs.stats "joy", g.ending))
      = some (some 0, some ("ending.JOY_LOW.title", "ending.JOY_LOW.body")) := by
  decide

unseal Rat.add Rat.mul Rat.inv Rat.sub in
/-- C2 counterexample: after the left decision of the rounding scenario
(fixed delta -1 from value 50) the stat value is 97/2 = 48.5, a rational
with denominator 2 — no rounding to an integer happens. -/
theorem c2_counterexample :
    g2_1.toOption.map (fun g => dictGet g.gs.stats "joy") = some (some (97 / 2)) ∧
    (97 / 2 : Rat).den = 2 := by
  decide

unseal Rat.add Rat.mul Rat.inv Rat.sub in
/-- C5 counterexample: after scenario 1's run has ended (ended = true,
turn 1), a further left decision still succeeds and increments the turn to
2 — it is not a no-op. -/
theorem c5_counterexample :
    g8_1.toOption.map (fun g => (g.ended, g.gs.turn)) = some (true, 1) ∧
    g8_2.toOption.map (fun g => (g.ended, g.gs.turn)) = some (true, 2) := by
  decide

unseal Rat.add Rat.mul Rat.inv Rat.sub in
/-- C6 counterexample: submitting the invalid direction "X" on card6 is not
rejected: the right branch's effect joy: -10 is applied (50 becomes 35) and
the turn advances to 1. -/
theorem c6_counterexample :
    g6_x.toOption.map (fun g => (dictGet g.gs.stats "joy", g.gs.turn))
      = some (some 35, 1) ∧ (35 : Rat) ≠ 50 := by
  decide

unseal Rat.add Rat.mul Rat.inv Rat.sub in
/-- C4 counterexample: on an empty card list the fallback is the empty list
itself, so `eligible_cards` does return an empty result. -/
theorem c4_counterexample :
    eligible_cards { stats := [], flags := [], turn := 0, last_card_id := none } [] = [] := by
  decide

unseal Rat.add Rat.mul Rat.inv Rat.sub in
/-- C7 counterexample: deck_bad fails the spec's validation (unknown effect
key, lo > hi range, turn limit 0) yet the loading/initialisation path
accepts it and starts a run. -/
theorem c7_counterexample :
    deck_valid_spec deck_bad = false ∧ (init_game_root choose0 deck_bad).isOk = true := by
  decide

unseal Rat.add Rat.mul Rat.inv Rat.sub in
/-- C10 counterexample: with a stats mapping holding only "joy" (at the low
boundary), `check_ending` is perfectly well-defined — it returns the joy
low-boundary outcome without reaching the four missing keys. -/
theorem c10_counterexample :
    check_ending gs10 5 = .ok (some ("ending.JOY_LOW.title", "ending.JOY_LOW.body")) ∧
    all_five_present gs10 = false := by
  decide

end FeelingsWorld
